import Mathlib

/-!
Verification of the cron-manager scheduler core against its specification.

The definitions below are a shallow embedding of the TypeScript sources:
  * `src/scheduler/execution.service.ts`  (`executeHttpRequest`)
  * `src/scheduler/scheduler.service.ts`  (`executeJobInternal`, `unregisterJob`)
  * `src/rescheduling/rescheduling.service.ts`
    (`initializeRules`, `evaluateRules`, `evaluateAndReschedule`,
     `applyRescheduling`, `extendCronInterval`, `disableJob`)

JavaScript numbers that only ever hold small integral or short decimal
values (rates, factors, timeouts) are modelled as `ℚ`; machine floats play
no role at the decision boundaries exercised here.  JavaScript strings are
modelled as Lean `String` via their character lists.
-/

namespace CronManager

/-! ## JavaScript string primitives used by the sources -/

/-- Whitespace recognised by `String.prototype.trim` and the `\s` class
(restricted to the ASCII whitespace characters, the only ones that occur
in the data handled by this program). -/
def jsIsWhite (c : Char) : Bool :=
  c = ' ' || c = '\t' || c = '\n' || c = '\r' || c = '\x0b' || c = '\x0c'

/-- Drop leading whitespace characters. -/
def dropLeadingWhite : List Char → List Char
  | [] => []
  | c :: cs => if jsIsWhite c then dropLeadingWhite cs else c :: cs

/-- JavaScript `s.trim()`: remove whitespace from both ends. -/
def jsTrim (s : String) : String :=
  ⟨(dropLeadingWhite (dropLeadingWhite s.data.reverse).reverse)⟩

/-- Check that the first list is an initial segment of the second
(JavaScript `String.prototype.startsWith`, on character lists). -/
def leadsWith : List Char → List Char → Bool
  | [], _ => true
  | _ :: _, [] => false
  | p :: ps, c :: cs => p == c && leadsWith ps cs

/-- Check that `sub` occurs contiguously somewhere in the list
(JavaScript `String.prototype.includes`, on character lists). -/
def hasSubList (sub : List Char) : List Char → Bool
  | [] => sub.isEmpty
  | c :: cs => leadsWith sub (c :: cs) || hasSubList sub cs

/-- JavaScript `s.startsWith(p)`. -/
def strStarts (s p : String) : Bool := leadsWith p.data s.data

/-- JavaScript `s.includes(sub)`. -/
def hasSub (s sub : String) : Bool := hasSubList sub.data s.data

/-! ## Response data and the HTML body filter
(`executeJobInternal`, scheduler.service.ts lines 180-218) -/

/-- The shapes of `result.data` distinguished by `executeJobInternal`:
a string, `null`, `undefined`, or a structured (JSON) value carried here
together with its `JSON.stringify` rendering. -/
inductive JsData where
  | jstr : String → JsData
  | jnull : JsData
  | jundef : JsData
  | jjson : String → JsData
deriving DecidableEq

/-- Escaping of one character inside a JSON string literal (quote and
backslash; control characters do not occur in the data considered here). -/
def jsQuoteChar (c : Char) : List Char :=
  if c = '"' then ['\\', '"'] else if c = '\\' then ['\\', '\\'] else [c]

/-- JavaScript `JSON.stringify` applied to a string value. -/
def jsQuote (s : String) : String :=
  ⟨'"' :: s.data.foldr (fun c acc => jsQuoteChar c ++ acc) ['"']⟩

/-- JavaScript `JSON.stringify(result.data)`; `none` models the JS
`undefined` result on `undefined` input (which Prisma then persists as a
missing value, i.e. SQL NULL). -/
def jsonStringify : JsData → Option String
  | .jstr s => some (jsQuote s)
  | .jnull => some "null"
  | .jundef => none
  | .jjson s => some s

/-- The `responseDataStr` computed by `executeJobInternal` (lines 185-195):
strings pass through, `null`/`undefined` give `''`, structured data is
JSON-serialized. -/
def responseDataStr : JsData → String
  | .jstr s => s
  | .jnull => ""
  | .jundef => ""
  | .jjson s => s

/-- The `isHtml` check of `executeJobInternal` (lines 200-208), verbatim:
three exact case variants of each prefix, a `<` prefix combined with a
`</html>`/`</HTML>` occurrence, or `<!DOCTYPE` and `<html` occurring
anywhere. -/
def isHtml (trimmed : String) : Bool :=
  strStarts trimmed "<!DOCTYPE" ||
  strStarts trimmed "<!doctype" ||
  strStarts trimmed "<!Doctype" ||
  strStarts trimmed "<html" ||
  strStarts trimmed "<HTML" ||
  strStarts trimmed "<Html" ||
  (strStarts trimmed "<" && (hasSub trimmed "</html>" || hasSub trimmed "</HTML>")) ||
  (hasSub trimmed "<!DOCTYPE" && hasSub trimmed "<html")

/-- The `responseBodyToSave` computed by `executeJobInternal`
(lines 197-218): `null` when the trimmed serialization looks like HTML,
otherwise `JSON.stringify(result.data)`. -/
def responseBodyToSave (d : JsData) : Option String :=
  if isHtml (jsTrim (responseDataStr d)) then none else jsonStringify d

/-- The HTML classification of the spec claim C6, read literally: a
case-insensitive `<!DOCTYPE` or `<html` prefix, or a `<` prefix with a
later `</html>`. -/
def lowerStr (s : String) : String := ⟨s.data.map Char.toLower⟩

/-- Claim C6's classification as stated (case-insensitive prefix test). -/
def specHtmlClaim (t : String) : Bool :=
  strStarts (lowerStr t) "<!doctype" ||
  strStarts (lowerStr t) "<html" ||
  (strStarts t "<" && hasSub t "</html>")

/-- The classification the code actually performs, stated as a
proposition over character lists (used by the amended form of C6). -/
def amendedHtml (t : String) : Prop :=
  "<!DOCTYPE".data <+: t.data ∨ "<!doctype".data <+: t.data ∨ "<!Doctype".data <+: t.data ∨
  "<html".data <+: t.data ∨ "<HTML".data <+: t.data ∨ "<Html".data <+: t.data ∨
  ("<".data <+: t.data ∧ ("</html>".data <:+: t.data ∨ "</HTML>".data <:+: t.data)) ∨
  ("<!DOCTYPE".data <:+: t.data ∧ "<html".data <:+: t.data)

/-! ## The HTTP invoker (`executeHttpRequest`, execution.service.ts lines 44-110) -/

/-- Outcome of the single `axios(config)` call, as discriminated by the
invoker's catch clauses: a delivered response (with `validateStatus: () =>
true` axios delivers every received response this way, whatever the status
code), an `ECONNABORTED` timeout error, an error nonetheless carrying
`error.response` (defensive branch), an error with `error.request` but no
response, and any other request failure. -/
inductive AxiosOutcome where
  | ok (status : Nat) (data : JsData)
  | errConnAborted
  | errWithResponse (status : Nat) (data : JsData) (msg : String)
  | errNoResponse (msg : String)
  | errOther (msg : String)
deriving DecidableEq

/-- The invoker `executeHttpRequest`: returns `{status, data}` for any
delivered response, and throws (models: `Except.error`) exactly on
timeout, missing response, or request failure. -/
def executeHttpRequest (timeoutMs : Nat) (o : AxiosOutcome) : Except String (Nat × JsData) :=
  match o with
  | .ok st d => .ok (st, d)
  | .errConnAborted => .error ("Request timeout after " ++ toString timeoutMs ++ "ms")
  | .errWithResponse st d _ => .ok (st, d)
  | .errNoResponse msg => .error ("No response received: " ++ msg)
  | .errOther msg => .error ("Request failed: " ++ msg)

/-- One call of the invoker against a stream of pending transport
outcomes: the body of `executeHttpRequest` contains exactly one
`await axios(config)`, so exactly one element is consumed. -/
def executeHttpRequestOnStream (timeoutMs : Nat) (calls : List AxiosOutcome) :
    Option (Except String (Nat × JsData) × List AxiosOutcome) :=
  match calls with
  | [] => none
  | o :: rest => some (executeHttpRequest timeoutMs o, rest)

/-! ## The execution driver (`executeJobInternal`, scheduler.service.ts
lines 131-360).  Database writes, WebSocket events and wall-clock times
are outside the claims considered here; the embedding keeps the terminal
execution record and the sequence of retry sleeps. -/

/-- Prisma `ExecutionStatus`. -/
inductive ExecStatus where
  | RUNNING
  | SUCCESS
  | FAILED
deriving DecidableEq

/-- The terminal execution record written by `executeJobInternal`. -/
structure ExecRecord where
  status : ExecStatus
  responseStatus : Option Nat
  responseBody : Option String
  errorMessage : Option String
  attemptNumber : Nat
deriving DecidableEq

/-- The retry loop of `executeJobInternal` (lines 164-337).  `attempt` is
the current attempt number, `remaining` the number of attempts still
allowed (`retryCount - attempt + 1`), `lastErr` the last caught error
message; `out a` is the transport outcome of attempt `a`.  Returns the
terminal record together with the list of back-off sleeps performed, in
order.  On a caught error the source increments `attempt` and sleeps
`min(1000 * 2^(attempt-1), 60000)` ms only when the incremented `attempt`
is still within `retryCount`, i.e. when at least one attempt remains. -/
def execLoop (timeoutMs : Nat) (out : Nat → AxiosOutcome) :
    Nat → Nat → Option String → ExecRecord × List Nat
  | attempt, 0, lastErr =>
    ({ status := .FAILED, responseStatus := none, responseBody := none,
       errorMessage := some (lastErr.getD "Unknown error"),
       attemptNumber := attempt - 1 }, [])
  | attempt, remaining + 1, _lastErr =>
    match executeHttpRequest timeoutMs (out attempt) with
    | .ok (st, d) =>
      ({ status := .SUCCESS, responseStatus := some st,
         responseBody := responseBodyToSave d, errorMessage := none,
         attemptNumber := attempt }, [])
    | .error msg =>
      let rest := execLoop timeoutMs out (attempt + 1) remaining (some msg)
      match remaining with
      | 0 => rest
      | _ + 1 => (rest.1, min (1000 * 2 ^ (attempt + 1 - 1)) 60000 :: rest.2)

/-- One firing driven by `executeJobInternal` with retry budget
`retryCount`: the loop starts at attempt 1 with `lastError = null`. -/
def executeJobInternal (retryCount timeoutMs : Nat) (out : Nat → AxiosOutcome) :
    ExecRecord × List Nat :=
  execLoop timeoutMs out 1 retryCount none

/-- Whether attempt `a` is classified a success by the driver, i.e. the
invoker returned rather than threw. -/
def isOkAttempt (timeoutMs : Nat) (out : Nat → AxiosOutcome) (a : Nat) : Bool :=
  match executeHttpRequest timeoutMs (out a) with
  | .ok _ => true
  | .error _ => false

/-- Number of consecutive failing attempts starting at attempt `a`, at
most `r` attempts considered. -/
def failStreakFrom (timeoutMs : Nat) (out : Nat → AxiosOutcome) : Nat → Nat → Nat
  | _, 0 => 0
  | a, r + 1 =>
    if isOkAttempt timeoutMs out a then 0
    else failStreakFrom timeoutMs out (a + 1) r + 1

/-! ## Numeric string primitives used by `extendCronInterval` -/

/-- Accumulator loop of JavaScript `parseInt`: consume decimal digits,
stop at the first non-digit. -/
def digitsValAux (acc : Nat) : List Char → Nat
  | [] => acc
  | c :: cs => if c.isDigit then digitsValAux (10 * acc + (c.toNat - 48)) cs else acc

/-- Value of the longest digit prefix, `none` when the list does not
start with a digit (JavaScript `NaN`). -/
def digitsPrefix (l : List Char) : Option Nat :=
  match l with
  | [] => none
  | c :: _ => if c.isDigit then some (digitsValAux 0 l) else none

/-- JavaScript `parseInt(s, 10)`: an optional sign followed by a digit
prefix; `none` models `NaN`.  (The leading-whitespace skip of `parseInt`
is irrelevant here: the inputs are whitespace-free split fields.) -/
def jsParseInt (s : String) : Option Int :=
  match s.data with
  | [] => none
  | c :: rest =>
    if c = '-' then (digitsPrefix rest).map (fun n => -(n : Int))
    else if c = '+' then (digitsPrefix rest).map (fun n => (n : Int))
    else (digitsPrefix (c :: rest)).map (fun n => (n : Int))

/-- Decimal digits of `n`, most significant first; `fuel` bounds the
recursion and any `fuel > n` is enough. -/
def natPrintAux : Nat → Nat → List Char
  | 0, _ => []
  | fuel + 1, n =>
    if n < 10 then [Char.ofNat (48 + n)]
    else natPrintAux fuel (n / 10) ++ [Char.ofNat (48 + n % 10)]

/-- Decimal rendering of a natural number. -/
def natPrint (n : Nat) : List Char := natPrintAux (n + 1) n

/-- JavaScript number-to-string for integral values, as produced by the
template literals in `extendCronInterval`. -/
def jsNumToString (i : Int) : String :=
  if i < 0 then "-" ++ (⟨natPrint i.natAbs⟩ : String) else (⟨natPrint i.toNat⟩ : String)

/-- One step of the whitespace split: a whitespace character opens a new
(empty) group, any other character is prepended to the current group. -/
def splitStep (c : Char) (acc : List (List Char)) : List (List Char) :=
  if jsIsWhite c then [] :: acc
  else
    match acc with
    | [] => [[c]]
    | w :: ws => (c :: w) :: ws

/-- Grouping pass of the whitespace split. -/
def splitFieldsCore (l : List Char) : List (List Char) := l.foldr splitStep []

/-- JavaScript `s.split(/\s+/)` on an already-trimmed string: the fields
are the maximal whitespace-free runs.  (On trimmed input the only
difference to the JavaScript result is that an all-whitespace string
yields `[]` instead of `['']`; both fail the length-5 check below.) -/
def splitFields (l : List Char) : List (List Char) :=
  (splitFieldsCore l).filter (fun w => !w.isEmpty)

/-- Join words with single spaces (the shape of the strings rebuilt by
`extendCronInterval`'s template literals). -/
def joinSep : List (List Char) → List Char
  | [] => []
  | [w] => w
  | w :: ws => w ++ ' ' :: joinSep ws

/-- JavaScript `s.split('/')` (used for the `*/s` step form). -/
def splitOnCharAux (sep : Char) (cur : List Char) : List Char → List (List Char)
  | [] => [cur.reverse]
  | c :: cs =>
    if c = sep then cur.reverse :: splitOnCharAux sep [] cs
    else splitOnCharAux sep (c :: cur) cs

/-- JavaScript `s.split(sep)` for a single-character separator. -/
def splitOnChar (sep : Char) (s : String) : List String :=
  (splitOnCharAux sep [] s.data).map (fun l => (⟨l⟩ : String))

/-! ## The rescheduling controller
(`rescheduling.service.ts`) -/

/-- The `JobMetrics` interface (lines 17-24).  The rates and the average
are JavaScript numbers; they are modelled as rationals. -/
structure JobMetrics where
  successRate : ℚ
  failureRate : ℚ
  averageExecutionTime : ℚ
  recentFailures : Nat
  recentTimeouts : Nat
  totalExecutions : Nat

/-- The job fields the controller reads. -/
structure RJob where
  id : String
  cronExpression : String
  timeoutMs : ℚ
  createdBy : String

/-- The `extendCronInterval` helper (lines 233-266): on a 5-field
expression with a numeric minute field `m`, rewrite it to
`max(1, floor(m * factor))`; on a step form `range/s`, rewrite the step
the same way (a non-numeric step renders as `NaN`, as `Math.max` and
`Math.floor` propagate `NaN` into the template literal); otherwise return
the expression unchanged. -/
def extendCronInterval (cronExpression : String) (factor : ℚ) : String :=
  let parts := (splitFields (jsTrim cronExpression).data).map (fun l => (⟨l⟩ : String))
  match parts with
  | [p0, p1, p2, p3, p4] =>
    match jsParseInt p0 with
    | some m =>
      jsNumToString (max 1 ⌊(m : ℚ) * factor⌋) ++ " " ++ p1 ++ " " ++ p2 ++ " " ++ p3 ++ " " ++ p4
    | none =>
      if p0.data.contains '/' then
        match splitOnChar '/' p0 with
        | range :: step :: _ =>
          match jsParseInt step with
          | some sv =>
            range ++ "/" ++ jsNumToString (max 1 ⌊(sv : ℚ) * factor⌋) ++ " " ++ p1 ++ " " ++ p2 ++ " " ++ p3 ++ " " ++ p4
          | none => range ++ "/NaN" ++ " " ++ p1 ++ " " ++ p2 ++ " " ++ p3 ++ " " ++ p4
        | _ => cronExpression
      else cronExpression
  | _ => cronExpression

/-- Condition of rule 1, `success-based-keep` (priority 1):
`successRate >= 0.95 && totalExecutions >= 20`. -/
abbrev rule1Cond (m : JobMetrics) : Prop :=
  (95 : ℚ)/100 ≤ m.successRate ∧ 20 ≤ m.totalExecutions

/-- Condition of rule 2, `failure-based-backoff` (priority 2):
`failureRate > 0.5 && totalExecutions >= 10`. -/
abbrev rule2Cond (m : JobMetrics) : Prop :=
  (1 : ℚ)/2 < m.failureRate ∧ 10 ≤ m.totalExecutions

/-- Condition of rule 3, `timeout-based-reduce` (priority 3):
`recentTimeouts >= 3 && totalExecutions >= 10`. -/
abbrev rule3Cond (m : JobMetrics) : Prop :=
  3 ≤ m.recentTimeouts ∧ 10 ≤ m.totalExecutions

/-- Condition of rule 4, `load-based-distribute` (priority 4):
`averageExecutionTime > timeoutMs * 0.8 && totalExecutions >= 10`. -/
abbrev rule4Cond (j : RJob) (m : JobMetrics) : Prop :=
  j.timeoutMs * ((8 : ℚ)/10) < m.averageExecutionTime ∧ 10 ≤ m.totalExecutions

/-- Condition of rule 5, `consecutive-failures-disable` (priority 5):
`recentFailures >= 3`. -/
abbrev rule5Cond (m : JobMetrics) : Prop := 3 ≤ m.recentFailures

/-- Result of one pass of `evaluateRules`: the returned expression (the
first truthy action result), and whether rule 5's action ran `disableJob`
as a side effect. -/
structure RuleOutcome where
  newExpression : Option String
  disabled : Bool
deriving DecidableEq

/-- Rule 5 step of `evaluateRules`: its action disables the job and
returns `null`, so the loop always falls through to its end. -/
def eval5 (m : JobMetrics) : RuleOutcome :=
  if rule5Cond m then { newExpression := none, disabled := true }
  else { newExpression := none, disabled := false }

/-- Rule 4 step: on a truthy rewrite the loop returns it, an empty
rewrite is falsy and the loop continues (`if (newExpression)`). -/
def eval4 (j : RJob) (m : JobMetrics) : RuleOutcome :=
  if rule4Cond j m then
    let r := extendCronInterval j.cronExpression ((12 : ℚ)/10)
    if r.isEmpty then eval5 m else { newExpression := some r, disabled := false }
  else eval5 m

/-- Rule 3 step (factor 1.5). -/
def eval3 (j : RJob) (m : JobMetrics) : RuleOutcome :=
  if rule3Cond m then
    let r := extendCronInterval j.cronExpression ((3 : ℚ)/2)
    if r.isEmpty then eval4 j m else { newExpression := some r, disabled := false }
  else eval4 j m

/-- Rule 2 step (factor 2). -/
def eval2 (j : RJob) (m : JobMetrics) : RuleOutcome :=
  if rule2Cond m then
    let r := extendCronInterval j.cronExpression (2 : ℚ)
    if r.isEmpty then eval3 j m else { newExpression := some r, disabled := false }
  else eval3 j m

/-- Rule 1 step: its action returns `null` (keep schedule), which is
falsy, so the loop continues with the next rule whether or not the
condition matched. -/
def eval1 (j : RJob) (m : JobMetrics) : RuleOutcome :=
  if rule1Cond m then eval2 j m else eval2 j m

/-- The `evaluateRules` loop (lines 183-197) over the five rules in
priority order (`initializeRules` pushes them with priorities 1..5 and
sorts, which keeps this order). -/
def evaluateRules (j : RJob) (m : JobMetrics) : RuleOutcome := eval1 j m

/-- Whether one of the rules 2-4 stops `evaluateRules` before rule 5 is
reached: its condition holds and its rewrite is truthy. -/
def truthyBefore5 (j : RJob) (m : JobMetrics) : Bool :=
  (decide (rule2Cond m) && !(extendCronInterval j.cronExpression (2 : ℚ)).isEmpty) ||
  (decide (rule3Cond m) && !(extendCronInterval j.cronExpression ((3 : ℚ)/2)).isEmpty) ||
  (decide (rule4Cond j m) && !(extendCronInterval j.cronExpression ((12 : ℚ)/10)).isEmpty)

/-- A `ScheduleChange` row (prisma model), as created by
`applyRescheduling` (lines 218-226). -/
structure ScheduleChange where
  cronJobId : String
  oldCronExpression : String
  newCronExpression : String
  reason : String
  changedBy : String
deriving DecidableEq

/-- The row appended by `applyRescheduling(job, newExpression, reason)`:
the stored reason is the template `Auto-rescheduling: ${reason}`. -/
def applyRescheduling (j : RJob) (newExpression reason : String) : ScheduleChange :=
  { cronJobId := j.id
    oldCronExpression := j.cronExpression
    newCronExpression := newExpression
    reason := "Auto-rescheduling: " ++ reason
    changedBy := j.createdBy }

/-- The per-job body of `evaluateAndReschedule` (lines 113-127): when
`evaluateRules` returns a (truthy) expression different from the current
one, `applyRescheduling(job, newExpression, 'auto-rescheduling')` runs
and appends exactly one `ScheduleChange`. -/
def sweepScheduleChange (j : RJob) (m : JobMetrics) : Option ScheduleChange :=
  match (evaluateRules j m).newExpression with
  | some ne =>
    if ne = j.cronExpression then none
    else some (applyRescheduling j ne "auto-rescheduling")
  | none => none

/-! ## Storage and the in-memory timer registry -/

/-- The state the disable path touches: the per-job `isActive` column in
storage, and the set of job ids holding a live timer in the scheduler's
in-memory registry (`registeredJobs`). -/
structure SysState where
  isActive : String → Bool
  registry : List String

/-- The controller's `disableJob` (lines 268-274): a single
`prisma.cronJob.update` setting `isActive: false`.  No call into the
scheduler is made, so the registry is untouched. -/
def disableJob (st : SysState) (jobId : String) : SysState :=
  { st with isActive := fun i => if i = jobId then false else st.isActive i }

/-- The scheduler's `unregisterJob` (scheduler.service.ts lines 96-108),
which `disableJob` does not invoke: stops the timer and removes the
registry entry. -/
def unregisterJob (st : SysState) (jobId : String) : SysState :=
  { st with registry := st.registry.erase jobId }

/-- One job's step of the hourly sweep, restricted to the state of
`SysState`: rule evaluation, with rule 5's `disableJob` side effect
applied when it ran. -/
def sweepJob (st : SysState) (j : RJob) (m : JobMetrics) : SysState × Option String :=
  let o := evaluateRules j m
  (if o.disabled then disableJob st j.id else st, o.newExpression)

/-- The controller's enable flag (line 37):
`configService.get('AUTO_RESCHEDULING_ENABLED') === 'true'`, where `get`
returns `undefined` (`none`) for an absent key. -/
def reschedulingEnabled (cfg : Option String) : Bool :=
  match cfg with
  | some s => s = "true"
  | none => false

/-- The hourly `evaluateAndReschedule` sweep (lines 100-128) over the
active jobs, reduced to the schedule changes it would append: when the
flag is off it returns immediately, touching nothing. -/
def evaluateAndReschedule (enabled : Bool) (jobs : List (RJob × JobMetrics)) :
    List (String × Option ScheduleChange) :=
  if enabled = false then []
  else jobs.map (fun p => (p.1.id, sweepScheduleChange p.1 p.2))

/-! ## Concrete inputs used by the counterexamples and witnesses -/

/-- Metrics matching rule 1 (19 of 20 successes over 100 runs) and also
rule 5 (3 failures among the 10 most recent). -/
def c3Metrics : JobMetrics :=
  { successRate := (95 : ℚ)/100, failureRate := (5 : ℚ)/100,
    averageExecutionTime := 0, recentFailures := 3, recentTimeouts := 0,
    totalExecutions := 100 }

/-- A job used by the rule-evaluation examples. -/
def c3Job : RJob :=
  { id := "job-3", cronExpression := "*/5 * * * *", timeoutMs := 30000,
    createdBy := "user-3" }

/-- A job whose history makes only rule 5 fire: 5 executions in total,
3 failed, all among the most recent 10. -/
def c4Metrics : JobMetrics :=
  { successRate := (2 : ℚ)/5, failureRate := (3 : ℚ)/5,
    averageExecutionTime := 0, recentFailures := 3, recentTimeouts := 0,
    totalExecutions := 5 }

/-- The job auto-disabled in the C4 scenario. -/
def c4Job : RJob :=
  { id := "job-1", cronExpression := "*/5 * * * *", timeoutMs := 30000,
    createdBy := "user-1" }

/-- Initial state for the C4 scenario: the job is active and its timer is
registered, as established at boot (`onModuleInit` registers exactly the
`isActive` jobs). -/
def c4St : SysState :=
  { isActive := fun i => i == "job-1", registry := ["job-1"] }

/-- The back-off scenario of the spec (scenario 6): 10 recent executions,
6 failed, 4 succeeded. -/
def c5Metrics : JobMetrics :=
  { successRate := (4 : ℚ)/10, failureRate := (6 : ℚ)/10,
    averageExecutionTime := 0, recentFailures := 6, recentTimeouts := 0,
    totalExecutions := 10 }

/-- The job rescheduled in the back-off scenario. -/
def c5Job : RJob :=
  { id := "j1", cronExpression := "5 * * * *", timeoutMs := 30000,
    createdBy := "u1" }

/-- The `ScheduleChange` row the sweep appends in the back-off scenario. -/
def c5Change : ScheduleChange := applyRescheduling c5Job "10 * * * *" "auto-rescheduling"

end CronManager

namespace CronManager

/-! ## Bridging lemmas between the boolean string tests and list relations -/

theorem leadsWith_iff (p l : List Char) : leadsWith p l = true ↔ p <+: l := by
  induction p generalizing l with
  | nil => simp [leadsWith]
  | cons a ps ih =>
    cases l with
    | nil => simp [leadsWith]
    | cons c cs =>
      simp [leadsWith, Bool.and_eq_true, beq_iff_eq, List.cons_prefix_cons, ih]

theorem hasSubList_iff (sub l : List Char) : hasSubList sub l = true ↔ sub <:+: l := by
  induction l with
  | nil =>
    simp [hasSubList, List.isEmpty_iff]
  | cons c cs ih =>
    simp [hasSubList, leadsWith_iff, ih, List.infix_cons_iff]

theorem isHtml_iff_amended (t : String) : isHtml t = true ↔ amendedHtml t := by
  simp only [isHtml, amendedHtml, strStarts, hasSub, Bool.or_eq_true, Bool.and_eq_true,
    leadsWith_iff, hasSubList_iff]
  tauto

/-! ## Claim C6: the response-body filter -/

/-- Claim C6 (counterexample): the claim's classification treats any
case-insensitive variant of `<!DOCTYPE` as an HTML prefix, but the code
checks only three exact variants, so `<!dOcTyPe html>` is classified HTML
by the claim while the driver persists its JSON-serialized body. -/
theorem C6_counterexample :
    specHtmlClaim (jsTrim (responseDataStr (JsData.jstr "<!dOcTyPe html>"))) = true ∧
    responseBodyToSave (JsData.jstr "<!dOcTyPe html>") = some (jsQuote "<!dOcTyPe html>") ∧
    jsQuote "<!dOcTyPe html>" = "\"<!dOcTyPe html>\"" := by
  refine ⟨by decide, by decide, by decide⟩

/-- Claim C6 (amended): for every persisted body whose data is not the
JavaScript `undefined`, the body is stored as `null` exactly when the
trimmed serialization matches the code's classification — a prefix equal
to one of the exact variants `<!DOCTYPE`, `<!doctype`, `<!Doctype`,
`<html`, `<HTML`, `<Html`, or a `<` prefix with `</html>` or `</HTML>`
occurring later, or `<!DOCTYPE` and `<html` both occurring anywhere —
and otherwise it is stored as the `JSON.stringify` of the response data
(so a string body is stored quoted, not verbatim). -/
theorem C6_amended (d : JsData) (h : d ≠ JsData.jundef) :
    (responseBodyToSave d = none ↔ amendedHtml (jsTrim (responseDataStr d))) ∧
    (¬ amendedHtml (jsTrim (responseDataStr d)) → responseBodyToSave d = jsonStringify d) := by
  have hjs : jsonStringify d ≠ none := by
    cases d with
    | jundef => exact absurd rfl h
    | jstr s => simp [jsonStringify]
    | jnull => simp [jsonStringify]
    | jjson s => simp [jsonStringify]
  simp only [responseBodyToSave]
  by_cases hH : isHtml (jsTrim (responseDataStr d)) = true
  · rw [if_pos hH]
    exact ⟨⟨fun _ => (isHtml_iff_amended _).mp hH, fun _ => rfl⟩,
           fun hA => absurd ((isHtml_iff_amended _).mp hH) hA⟩
  · rw [if_neg hH]
    refine ⟨⟨fun hn => absurd hn hjs, fun hA => ?_⟩, fun _ => rfl⟩
    exact absurd ((isHtml_iff_amended _).mpr hA) hH

/-- Witness for `C6_amended` at the plain string body `"hello"`. -/
theorem C6_amended_witness :
    responseBodyToSave (JsData.jstr "hello") = none ↔
      amendedHtml (jsTrim (responseDataStr (JsData.jstr "hello"))) :=
  (C6_amended (JsData.jstr "hello") (by decide)).1

/-! ## Claim C10: the interior-substring disjunct of the filter -/

/-- Claim C10: when the trimmed serialization does not begin with `<` but
contains both `<!DOCTYPE` and `<html` somewhere, the driver still
classifies it as HTML and persists a `null` body — the filter is not a
pure prefix test. -/
theorem C10_interior_doctype (d : JsData)
    (_h1 : ¬ ("<".data <+: (jsTrim (responseDataStr d)).data))
    (h2 : "<!DOCTYPE".data <:+: (jsTrim (responseDataStr d)).data)
    (h3 : "<html".data <:+: (jsTrim (responseDataStr d)).data) :
    responseBodyToSave d = none := by
  have hH : isHtml (jsTrim (responseDataStr d)) = true :=
    (isHtml_iff_amended _).mpr
      (Or.inr (Or.inr (Or.inr (Or.inr (Or.inr (Or.inr (Or.inr ⟨h2, h3⟩)))))))
  simp [responseBodyToSave, hH]

/-- Witness for `C10_interior_doctype` on a body that embeds an HTML
document inside a non-`<`-leading payload. -/
theorem C10_interior_doctype_witness :
    responseBodyToSave (JsData.jstr "data: <!DOCTYPE x <html y") = none :=
  C10_interior_doctype (JsData.jstr "data: <!DOCTYPE x <html y")
    (by decide) (by decide) (by decide)

/-! ## Claim C8: the invoker's error contract -/

/-- Claim C8: for every call, a delivered response — whatever its status,
including one attached to an axios error object — yields a returned
`{status, data}` and no throw; a throw happens exactly on timeout
(`ECONNABORTED`), no response received, or a failed request; and the call
consumes exactly one transport outcome (no internal retry). -/
theorem C8_invoker_contract (timeoutMs : Nat) (o : AxiosOutcome) :
    (∀ st d, o = .ok st d → executeHttpRequest timeoutMs o = .ok (st, d)) ∧
    (∀ st d m, o = .errWithResponse st d m → executeHttpRequest timeoutMs o = .ok (st, d)) ∧
    ((∃ e, executeHttpRequest timeoutMs o = .error e) ↔
      (o = .errConnAborted ∨ (∃ m, o = .errNoResponse m) ∨ (∃ m, o = .errOther m))) ∧
    (∀ calls : List AxiosOutcome,
      executeHttpRequestOnStream timeoutMs (o :: calls) = some (executeHttpRequest timeoutMs o, calls)) := by
  cases o <;> simp [executeHttpRequest, executeHttpRequestOnStream]

/-- Witness for `C8_invoker_contract`: a 404 response is returned, not
thrown. -/
theorem C8_invoker_contract_witness :
    executeHttpRequest 30000 (AxiosOutcome.ok 404 (JsData.jstr "nope")) =
      Except.ok (404, JsData.jstr "nope") :=
  (C8_invoker_contract 30000 (AxiosOutcome.ok 404 (JsData.jstr "nope"))).1 404
    (JsData.jstr "nope") rfl

/-! ## Claim C7: the controller's default arming -/

/-- Claim C7: with the `AUTO_RESCHEDULING_ENABLED` key
absent the comparison `get(...) === 'true'` yields `false`, so the
controller is disarmed by default — the hourly sweep returns immediately
— while the repository's own SETUP.md documents the default as `true`.
The sweep does honour the flag: disabled means no job is read or
touched. -/
theorem C7_code_bug :
    reschedulingEnabled none = false ∧
    (∀ jobs : List (RJob × JobMetrics),
      evaluateAndReschedule (reschedulingEnabled none) jobs = []) ∧
    reschedulingEnabled (some "true") = true := by
  refine ⟨rfl, fun jobs => rfl, by decide⟩

/-! ## Claims C1 and C2: attempt classification and back-off sleeps -/

theorem execLoop_error_fst (timeoutMs : Nat) (out : Nat → AxiosOutcome)
    (attempt remaining : Nat) (e : Option String) (msg : String)
    (h : executeHttpRequest timeoutMs (out attempt) = .error msg) :
    (execLoop timeoutMs out attempt (remaining + 1) e).1 =
      (execLoop timeoutMs out (attempt + 1) remaining (some msg)).1 := by
  cases remaining <;> simp [execLoop, h]

theorem execLoop_success (timeoutMs : Nat) (out : Nat → AxiosOutcome) :
    ∀ r a e j st d, j < r →
      executeHttpRequest timeoutMs (out (a + j)) = .ok (st, d) →
      (∀ i, i < j → isOkAttempt timeoutMs out (a + i) = false) →
      (execLoop timeoutMs out a r e).1 =
        { status := .SUCCESS, responseStatus := some st,
          responseBody := responseBodyToSave d, errorMessage := none,
          attemptNumber := a + j } := by
  intro r
  induction r with
  | zero => intro a e j st d hj; exact absurd hj (Nat.not_lt_zero j)
  | succ r ih =>
    intro a e j st d hj hok hprev
    cases j with
    | zero =>
      simp only [Nat.add_zero] at hok
      simp [execLoop, hok]
    | succ j' =>
      have hfail : isOkAttempt timeoutMs out a = false := by
        have := hprev 0 (Nat.succ_pos j'); simpa using this
      obtain ⟨msg, hmsg⟩ : ∃ msg, executeHttpRequest timeoutMs (out a) = .error msg := by
        unfold isOkAttempt at hfail
        cases hx : executeHttpRequest timeoutMs (out a) with
        | ok p => rw [hx] at hfail; simp at hfail
        | error m => exact ⟨m, rfl⟩
      rw [execLoop_error_fst _ _ _ _ _ _ hmsg]
      rw [show a + (j' + 1) = a + 1 + j' by omega] at hok ⊢
      exact ih (a + 1) (some msg) j' st d (by omega) hok
        (fun i hi => by
          rw [show a + 1 + i = a + (i + 1) by omega]
          exact hprev (i + 1) (by omega))

/-- Claim C1 (counterexample): a received 404 response is persisted as
SUCCESS with `responseStatus = 404` on the first attempt and no retry —
the driver never inspects the status code, so the claim's [200, 400)
success policy does not hold. -/
theorem C1_counterexample :
    (executeJobInternal 1 30000 (fun _ => .ok 404 (.jstr "ok"))).1.status = ExecStatus.SUCCESS ∧
    (executeJobInternal 1 30000 (fun _ => .ok 404 (.jstr "ok"))).1.responseStatus = some 404 ∧
    (executeJobInternal 1 30000 (fun _ => .ok 404 (.jstr "ok"))).1.attemptNumber = 1 ∧
    (executeJobInternal 1 30000 (fun _ => .ok 404 (.jstr "ok"))).2 = [] :=
  ⟨by decide, by decide, by decide, by decide⟩

/-- Claim C1 (amended): an attempt is counted a success iff
`executeHttpRequest` returns — any delivered response, whatever its
status code (including >= 400), is persisted as SUCCESS carrying that
status; only a thrown transport error (timeout, no response, failed
request) makes the attempt a failure that enters the retry loop. -/
theorem C1_amended (retryCount timeoutMs : Nat) (out : Nat → AxiosOutcome)
    (a st : Nat) (d : JsData)
    (ha : 1 ≤ a) (hb : a ≤ retryCount)
    (hok : executeHttpRequest timeoutMs (out a) = .ok (st, d))
    (hprev : ∀ i, 1 ≤ i → i < a → isOkAttempt timeoutMs out i = false) :
    (executeJobInternal retryCount timeoutMs out).1 =
      { status := .SUCCESS, responseStatus := some st,
        responseBody := responseBodyToSave d, errorMessage := none,
        attemptNumber := a } := by
  have hmain := execLoop_success timeoutMs out retryCount 1 none (a - 1) st d (by omega)
    (by rw [show 1 + (a - 1) = a by omega]; exact hok)
    (fun i hi => by
      have := hprev (1 + i) (by omega) (by omega)
      exact this)
  rw [show 1 + (a - 1) = a by omega] at hmain
  exact hmain

/-- Witness for `C1_amended`: attempt 1 times out, attempt 2 receives a
500 response and the firing is persisted SUCCESS at attempt 2. -/
theorem C1_amended_witness :
    (executeJobInternal 3 30000
        (fun n => if n = 1 then AxiosOutcome.errConnAborted else AxiosOutcome.ok 500 JsData.jnull)).1 =
      { status := ExecStatus.SUCCESS, responseStatus := some 500,
        responseBody := responseBodyToSave JsData.jnull, errorMessage := none,
        attemptNumber := 2 } :=
  C1_amended 3 30000
    (fun n => if n = 1 then AxiosOutcome.errConnAborted else AxiosOutcome.ok 500 JsData.jnull)
    2 500 JsData.jnull (by omega) (by omega) rfl
    (fun i h1 h2 => by
      have : i = 1 := by omega
      subst this; decide)

theorem execLoop_sleeps (timeoutMs : Nat) (out : Nat → AxiosOutcome) :
    ∀ r a e, (execLoop timeoutMs out a r e).2 =
      (List.range (min (failStreakFrom timeoutMs out a r) (r - 1))).map
        (fun i => min (1000 * 2 ^ (a + i)) 60000) := by
  intro r
  induction r with
  | zero => intro a e; simp [execLoop, failStreakFrom]
  | succ r ih =>
    intro a e
    by_cases hOk : isOkAttempt timeoutMs out a = true
    · obtain ⟨p, hp⟩ : ∃ p, executeHttpRequest timeoutMs (out a) = .ok p := by
        unfold isOkAttempt at hOk
        cases hx : executeHttpRequest timeoutMs (out a) with
        | ok p => exact ⟨p, rfl⟩
        | error m => rw [hx] at hOk; simp at hOk
      obtain ⟨st, d⟩ := p
      simp [execLoop, hp, failStreakFrom, hOk]
    · have hOk' : isOkAttempt timeoutMs out a = false := by
        simpa using hOk
      obtain ⟨msg, hmsg⟩ : ∃ msg, executeHttpRequest timeoutMs (out a) = .error msg := by
        unfold isOkAttempt at hOk'
        cases hx : executeHttpRequest timeoutMs (out a) with
        | ok p => rw [hx] at hOk'; simp at hOk'
        | error m => exact ⟨m, rfl⟩
      cases r with
      | zero => simp [execLoop, hmsg, failStreakFrom, hOk']
      | succ r' =>
        have hstep : (execLoop timeoutMs out a (r' + 1 + 1) e).2 =
            min (1000 * 2 ^ (a + 1 - 1)) 60000 ::
              (execLoop timeoutMs out (a + 1) (r' + 1) (some msg)).2 := by
          simp [execLoop, hmsg]
        rw [hstep, ih (a + 1) (some msg)]
        have hsf : failStreakFrom timeoutMs out a (r' + 1 + 1) =
            failStreakFrom timeoutMs out (a + 1) (r' + 1) + 1 := by
          simp [failStreakFrom, hOk']
        rw [hsf,
          show (failStreakFrom timeoutMs out (a + 1) (r' + 1) + 1) ⊓ (r' + 1 + 1 - 1) =
              failStreakFrom timeoutMs out (a + 1) (r' + 1) ⊓ (r' + 1 - 1) + 1 from by omega,
          List.range_succ_eq_map, List.map_cons, List.map_map]
        have he : ((fun i => min (1000 * 2 ^ (a + i)) 60000) ∘ Nat.succ) =
            (fun i => min (1000 * 2 ^ (a + 1 + i)) 60000) := by
          funext i
          simp only [Function.comp]
          rw [show a + Nat.succ i = a + 1 + i by omega]
        rw [he]
        simp

/-- Claim C2 (counterexample): with `retryBudget = 2` and a failing first
attempt the driver sleeps 2000 ms before attempt 2, not the claimed
`min(1000 * 2^(1-1), 60000) = 1000` ms: the source increments `attempt`
before computing the back-off exponent. -/
theorem C2_counterexample :
    (executeJobInternal 2 30000 (fun _ => AxiosOutcome.errConnAborted)).2 = [2000] ∧
    min (1000 * 2 ^ (1 - 1)) 60000 = 1000 ∧ (2000 : Nat) ≠ 1000 :=
  ⟨by decide, by decide, by decide⟩

/-- Claim C2 (amended): when attempts 1..k fail consecutively, the driver
sleeps after each failed attempt `a` with `a < retryBudget` exactly
`min(1000 * 2^a, 60000)` ms — 2s, 4s, 8s, ..., capped at 60s — and no
sleep follows the last allowed attempt; in particular `retryBudget = 1`
produces no sleep at all. -/
theorem C2_amended (retryCount timeoutMs : Nat) (out : Nat → AxiosOutcome) :
    (executeJobInternal retryCount timeoutMs out).2 =
      (List.range (min (failStreakFrom timeoutMs out 1 retryCount) (retryCount - 1))).map
        (fun i => min (1000 * 2 ^ (i + 1)) 60000) := by
  unfold executeJobInternal
  rw [execLoop_sleeps]
  have he : ∀ i : Nat, 1 + i = i + 1 := fun i => by omega
  simp only [he]

/-! ## Helper lemmas for concrete rule evaluations -/

theorem eval1_eq_eval2 (j : RJob) (m : JobMetrics) : eval1 j m = eval2 j m := by
  by_cases h : rule1Cond m <;> simp [eval1, h]

theorem eval5_disabled (m : JobMetrics) : (eval5 m).disabled = true ↔ rule5Cond m := by
  by_cases h : rule5Cond m <;> simp [eval5, h]

theorem eval4_disabled (j : RJob) (m : JobMetrics) :
    (eval4 j m).disabled = true ↔
      rule5Cond m ∧
      (decide (rule4Cond j m) && !(extendCronInterval j.cronExpression ((12 : ℚ)/10)).isEmpty) = false := by
  simp only [eval4]
  split_ifs with h hn
  · simp [eval5_disabled, h, hn]
  · simp [h, hn]
  · simp [eval5_disabled, h]

theorem eval3_disabled (j : RJob) (m : JobMetrics) :
    (eval3 j m).disabled = true ↔
      rule5Cond m ∧
      (decide (rule3Cond m) && !(extendCronInterval j.cronExpression ((3 : ℚ)/2)).isEmpty) = false ∧
      (decide (rule4Cond j m) && !(extendCronInterval j.cronExpression ((12 : ℚ)/10)).isEmpty) = false := by
  simp only [eval3]
  split_ifs with h hn
  · simp [eval4_disabled, h, hn, and_assoc]
  · simp [h, hn]
  · simp [eval4_disabled, h]

theorem eval2_disabled (j : RJob) (m : JobMetrics) :
    (eval2 j m).disabled = true ↔
      rule5Cond m ∧
      (decide (rule2Cond m) && !(extendCronInterval j.cronExpression (2 : ℚ)).isEmpty) = false ∧
      (decide (rule3Cond m) && !(extendCronInterval j.cronExpression ((3 : ℚ)/2)).isEmpty) = false ∧
      (decide (rule4Cond j m) && !(extendCronInterval j.cronExpression ((12 : ℚ)/10)).isEmpty) = false := by
  simp only [eval2]
  split_ifs with h hn
  · simp [eval3_disabled, h, hn, and_assoc]
  · constructor
    · intro hfalse
      exact absurd hfalse (by simp)
    · rintro ⟨-, hC2f, -, -⟩
      have hC2 : (decide (rule2Cond m) &&
          !(extendCronInterval j.cronExpression (2 : ℚ)).isEmpty) = true := by
        rw [Bool.and_eq_true]
        exact ⟨decide_eq_true h,
          by simp [show (extendCronInterval j.cronExpression (2 : ℚ)).isEmpty = false from by
            simpa using hn]⟩
      rw [hC2f] at hC2
      exact absurd hC2 (by decide)
  · simp [eval3_disabled, h]

theorem extendCron_numeric (e : String) (f : ℚ) (p0 p1 p2 p3 p4 : String) (m : Int)
    (hsplit : (splitFields (jsTrim e).data).map (fun l => (⟨l⟩ : String)) = [p0, p1, p2, p3, p4])
    (hm : jsParseInt p0 = some m) :
    extendCronInterval e f =
      jsNumToString (max 1 ⌊(m : ℚ) * f⌋) ++ " " ++ p1 ++ " " ++ p2 ++ " " ++ p3 ++ " " ++ p4 := by
  simp only [extendCronInterval, hsplit, hm]

theorem extendCron_five_two : extendCronInterval "5 * * * *" 2 = "10 * * * *" := by
  rw [extendCron_numeric "5 * * * *" 2 "5" "*" "*" "*" "*" 5 (by decide) (by decide)]
  have hfl : ⌊((5 : Int) : ℚ) * 2⌋ = 10 := by norm_num
  rw [hfl]
  decide

theorem evaluateRules_c5 :
    evaluateRules c5Job c5Metrics =
      { newExpression := some (extendCronInterval "5 * * * *" 2), disabled := false } := by
  have h2 : rule2Cond c5Metrics := ⟨by norm_num [c5Metrics], by norm_num [c5Metrics]⟩
  have hne : (extendCronInterval c5Job.cronExpression 2).isEmpty = false := by
    have : extendCronInterval c5Job.cronExpression 2 = "10 * * * *" := extendCron_five_two
    rw [this]; decide
  rw [evaluateRules, eval1_eq_eval2]
  simp only [eval2, if_pos h2, hne, Bool.false_eq_true, if_false]
  rfl

theorem sweep_c5 : sweepScheduleChange c5Job c5Metrics = some c5Change := by
  simp only [sweepScheduleChange, evaluateRules_c5, extendCron_five_two]
  rw [if_neg (by decide : ¬ ("10 * * * *" : String) = c5Job.cronExpression)]
  rfl

/-! ## Claim C3: rule ordering of the controller -/

/-- Claim C3 (counterexample): with metrics matching both rule 1
(successRate 0.95, 100 runs) and rule 5 (3 recent failures), rule 1's
match does not stop evaluation — its action returns `null`, which is
falsy, so the loop falls through and rule 5's disable action still runs,
although the claim says no lower-priority rule is applied. -/
theorem C3_counterexample :
    rule1Cond c3Metrics ∧ (evaluateRules c3Job c3Metrics).disabled = true := by
  have h1 : rule1Cond c3Metrics := ⟨by norm_num [c3Metrics], by norm_num [c3Metrics]⟩
  have h2 : ¬ rule2Cond c3Metrics := by
    intro h; have := h.1; norm_num [c3Metrics] at this
  have h3 : ¬ rule3Cond c3Metrics := by
    intro h; have := h.1; norm_num [c3Metrics] at this
  have h4 : ¬ rule4Cond c3Job c3Metrics := by
    intro h; have := h.1; norm_num [c3Metrics, c3Job] at this
  have h5 : rule5Cond c3Metrics := by norm_num [c3Metrics]
  refine ⟨h1, ?_⟩
  rw [evaluateRules, eval1_eq_eval2]
  simp only [eval2, if_neg h2, eval3, if_neg h3, eval4, if_neg h4, eval5, if_pos h5]

/-- Claim C3 (amended): the rules are evaluated in ascending priority
order, and the first rule whose condition holds and whose action returns
a truthy expression determines the returned expression — so when rules 2
and 5 both match (and rule 2's rewrite is non-empty) rule 2 wins and the
job is not disabled; but a matching rule with a null action (rule 1's
keep, rule 5's disable) does not stop the loop: rule 5's disable side
effect runs exactly when its condition holds and none of rules 2-4
returned a truthy rewrite, even if rule 1 matched. -/
theorem C3_amended (j : RJob) (m : JobMetrics) :
    (rule2Cond m → (extendCronInterval j.cronExpression 2).isEmpty = false →
      evaluateRules j m =
        { newExpression := some (extendCronInterval j.cronExpression 2), disabled := false }) ∧
    ((evaluateRules j m).disabled = true ↔
      (rule5Cond m ∧ truthyBefore5 j m = false)) := by
  rw [evaluateRules, eval1_eq_eval2]
  constructor
  · intro h2 hne
    simp only [eval2, if_pos h2, hne, Bool.false_eq_true, if_false]
  · rw [eval2_disabled]
    simp [truthyBefore5, Bool.or_eq_false_iff, and_assoc]

/-- Witness for `C3_amended`: in the back-off scenario rule 2 matches
with a non-empty rewrite, and the loop returns it without disabling. -/
theorem C3_amended_witness :
    rule2Cond c5Metrics ∧
    evaluateRules c5Job c5Metrics =
      { newExpression := some (extendCronInterval c5Job.cronExpression 2), disabled := false } := by
  have h2 : rule2Cond c5Metrics := ⟨by norm_num [c5Metrics], by norm_num [c5Metrics]⟩
  refine ⟨h2, ?_⟩
  exact (C3_amended c5Job c5Metrics).1 h2
    (by rw [show extendCronInterval c5Job.cronExpression 2 = "10 * * * *" from extendCron_five_two]; decide)

/-! ## Claim C4: the disable path and the timer registry -/

/-- Claim C4: when rule 5 fires for an enabled, registered job, the code
sets `isActive = false` in storage and appends no `ScheduleChange` — but
`disableJob` never calls `unregisterJob`, so the timer stays in the
in-memory registry and the claimed invariant
`registry.has(id) ⇔ enabled` is broken by the resulting state. -/
theorem C4_code_bug :
    (sweepJob c4St c4Job c4Metrics).1.isActive "job-1" = false ∧
    (sweepJob c4St c4Job c4Metrics).1.registry = ["job-1"] ∧
    ¬ (("job-1" ∈ (sweepJob c4St c4Job c4Metrics).1.registry) ↔
        (sweepJob c4St c4Job c4Metrics).1.isActive "job-1" = true) ∧
    (sweepJob c4St c4Job c4Metrics).2 = none := by
  have h1 : ¬ rule1Cond c4Metrics := by
    intro h; have := h.2; norm_num [c4Metrics] at this
  have h2 : ¬ rule2Cond c4Metrics := by
    intro h; have := h.2; norm_num [c4Metrics] at this
  have h3 : ¬ rule3Cond c4Metrics := by
    intro h; have := h.1; norm_num [c4Metrics] at this
  have h4 : ¬ rule4Cond c4Job c4Metrics := by
    intro h; have := h.1; norm_num [c4Metrics, c4Job] at this
  have h5 : rule5Cond c4Metrics := by norm_num [c4Metrics]
  have hrules : evaluateRules c4Job c4Metrics = { newExpression := none, disabled := true } := by
    rw [evaluateRules, eval1_eq_eval2]
    simp only [eval2, if_neg h2, eval3, if_neg h3, eval4, if_neg h4, eval5, if_pos h5]
  have hstep : sweepJob c4St c4Job c4Metrics = (disableJob c4St c4Job.id, none) := by
    simp [sweepJob, hrules]
  rw [hstep]
  simp [disableJob, c4St, c4Job]

/-! ## Claim C5: the recorded rescheduling reason -/

/-- Claim C5 (counterexample): in the spec's back-off scenario the
appended row does carry the old and new expressions, but its reason is
the constant `"Auto-rescheduling: auto-rescheduling"` — it is not of the
form `auto:<rule-name>` and never names the firing rule. -/
theorem C5_counterexample :
    sweepScheduleChange c5Job c5Metrics = some c5Change ∧
    c5Change.oldCronExpression = "5 * * * *" ∧
    c5Change.newCronExpression = "10 * * * *" ∧
    c5Change.reason = "Auto-rescheduling: auto-rescheduling" ∧
    c5Change.reason ≠ "auto:failure-based-backoff" ∧
    strStarts c5Change.reason "auto:" = false :=
  ⟨sweep_c5, by decide, by decide, by decide, by decide, by decide⟩

/-- Claim C5 (amended): every row the controller appends records the old
and the new expression and the author, but always with the fixed reason
`"Auto-rescheduling: auto-rescheduling"` (the template
`Auto-rescheduling: ${reason}` applied to the constant argument
`'auto-rescheduling'`), which does not identify the rule that fired. -/
theorem C5_amended (j : RJob) (m : JobMetrics) (sc : ScheduleChange)
    (h : sweepScheduleChange j m = some sc) :
    sc.oldCronExpression = j.cronExpression ∧
    some sc.newCronExpression = (evaluateRules j m).newExpression ∧
    sc.newCronExpression ≠ j.cronExpression ∧
    sc.reason = "Auto-rescheduling: auto-rescheduling" ∧
    sc.changedBy = j.createdBy := by
  unfold sweepScheduleChange at h
  cases hx : (evaluateRules j m).newExpression with
  | none =>
    rw [hx] at h
    have h2 : (none : Option ScheduleChange) = some sc := h
    exact absurd h2 (by simp)
  | some ne =>
    rw [hx] at h
    have h2 : (if ne = j.cronExpression then none
        else some (applyRescheduling j ne "auto-rescheduling")) = some sc := h
    by_cases hne : ne = j.cronExpression
    · rw [if_pos hne] at h2; exact absurd h2 (by simp)
    · rw [if_neg hne] at h2
      have hsc := Option.some.inj h2
      subst hsc
      exact ⟨rfl, rfl, hne, rfl, rfl⟩

/-- Witness for `C5_amended` at the back-off scenario row. -/
theorem C5_amended_witness :
    c5Change.oldCronExpression = c5Job.cronExpression ∧
    some c5Change.newCronExpression = (evaluateRules c5Job c5Metrics).newExpression ∧
    c5Change.newCronExpression ≠ c5Job.cronExpression ∧
    c5Change.reason = "Auto-rescheduling: auto-rescheduling" ∧
    c5Change.changedBy = c5Job.createdBy :=
  C5_amended c5Job c5Metrics c5Change sweep_c5

/-! ## Claim C9: decimal printing and parsing lemmas -/

theorem digitChar_facts (d : Nat) (hd : d < 10) :
    (Char.ofNat (48 + d)).isDigit = true ∧ jsIsWhite (Char.ofNat (48 + d)) = false ∧
    (Char.ofNat (48 + d)).toNat - 48 = d ∧
    Char.ofNat (48 + d) ≠ '-' ∧ Char.ofNat (48 + d) ≠ '+' := by
  interval_cases d <;> exact ⟨by decide, by decide, by decide, by decide, by decide⟩

theorem natPrintAux_all (fuel : Nat) :
    ∀ n, n < fuel →
      natPrintAux fuel n ≠ [] ∧
      ∀ c ∈ natPrintAux fuel n, c.isDigit = true ∧ jsIsWhite c = false := by
  induction fuel with
  | zero => intro n h; omega
  | succ f ih =>
    intro n _
    by_cases hn : n < 10
    · refine ⟨by simp [natPrintAux, hn], ?_⟩
      intro c hc
      simp [natPrintAux, hn] at hc
      subst hc
      exact ⟨(digitChar_facts n hn).1, (digitChar_facts n hn).2.1⟩
    · have hdiv : n / 10 < f := by omega
      obtain ⟨hne, hall⟩ := ih (n / 10) hdiv
      have hmod : n % 10 < 10 := Nat.mod_lt n (by omega)
      refine ⟨by simp [natPrintAux, hn], ?_⟩
      intro c hc
      simp only [natPrintAux, hn, if_false] at hc
      rcases List.mem_append.mp hc with h | h
      · exact hall c h
      · simp at h
        subst h
        exact ⟨(digitChar_facts _ hmod).1, (digitChar_facts _ hmod).2.1⟩

theorem digitsValAux_append (l1 : List Char) (h : ∀ c ∈ l1, c.isDigit = true) :
    ∀ (acc : Nat) (l2 : List Char),
      digitsValAux acc (l1 ++ l2) = digitsValAux (digitsValAux acc l1) l2 := by
  induction l1 with
  | nil => intro acc l2; rfl
  | cons c cs ih =>
    intro acc l2
    have hc : c.isDigit = true := h c (List.mem_cons_self c cs)
    simp only [List.cons_append, digitsValAux, hc, if_true]
    exact ih (fun x hx => h x (List.mem_cons_of_mem c hx)) _ l2

theorem natPrintAux_val (fuel : Nat) :
    ∀ n, n < fuel → ∀ acc,
      digitsValAux acc (natPrintAux fuel n) =
        acc * 10 ^ (natPrintAux fuel n).length + n := by
  induction fuel with
  | zero => intro n h; omega
  | succ f ih =>
    intro n hnf acc
    by_cases hn : n < 10
    · simp only [natPrintAux, hn, if_true, digitsValAux, (digitChar_facts n hn).1,
        (digitChar_facts n hn).2.2.1, List.length_singleton, pow_one]
      omega
    · have hdiv : n / 10 < f := by omega
      have hmod : n % 10 < 10 := Nat.mod_lt n (by omega)
      have hdig : ∀ c ∈ natPrintAux f (n / 10), c.isDigit = true :=
        fun c hc => ((natPrintAux_all f (n / 10) hdiv).2 c hc).1
      simp only [natPrintAux, hn, if_false]
      rw [digitsValAux_append _ hdig, ih (n / 10) hdiv acc]
      simp only [digitsValAux, (digitChar_facts _ hmod).1, (digitChar_facts _ hmod).2.2.1,
        if_true, List.length_append, List.length_singleton]
      rw [pow_succ]
      have h10 : 10 * (n / 10) + n % 10 = n := Nat.div_add_mod n 10
      ring_nf
      omega

theorem natPrint_all (n : Nat) :
    natPrint n ≠ [] ∧ ∀ c ∈ natPrint n, c.isDigit = true ∧ jsIsWhite c = false :=
  natPrintAux_all (n + 1) n (Nat.lt_succ_self n)

theorem jsParseInt_natPrint (n : Nat) : jsParseInt (⟨natPrint n⟩ : String) = some (n : Int) := by
  obtain ⟨hne, hall⟩ := natPrint_all n
  cases hl : natPrint n with
  | nil => exact absurd hl hne
  | cons c rest =>
    have hcmem : c ∈ natPrint n := by rw [hl]; exact List.mem_cons_self c rest
    have hcd : c.isDigit = true := (hall c hcmem).1
    have hcm : c ≠ '-' := fun hEq => by rw [hEq] at hcd; exact absurd hcd (by decide)
    have hcp : c ≠ '+' := fun hEq => by rw [hEq] at hcd; exact absurd hcd (by decide)
    have hdata : (⟨natPrint n⟩ : String).data = c :: rest := hl
    simp only [jsParseInt, hdata, if_neg hcm, if_neg hcp, digitsPrefix, hcd, if_true,
      Option.map_some]
    have hval := natPrintAux_val (n + 1) n (Nat.lt_succ_self n) 0
    rw [show natPrintAux (n + 1) n = natPrint n from rfl, hl] at hval
    rw [hval]
    simp

theorem jsNumToString_ofNat (n : Nat) : jsNumToString (n : Int) = (⟨natPrint n⟩ : String) := by
  rw [jsNumToString, if_neg (by omega : ¬ ((n : Int) < 0))]
  simp

/-! ## Claim C9: splitting canonically joined words -/

theorem splitFieldsCore_cons (c : Char) (l : List Char) :
    splitFieldsCore (c :: l) = splitStep c (splitFieldsCore l) := rfl

theorem splitFieldsCore_word (w : List Char) (hw : w ≠ [])
    (hall : ∀ c ∈ w, jsIsWhite c = false) :
    splitFieldsCore w = [w] := by
  induction w with
  | nil => exact absurd rfl hw
  | cons c cs ih =>
    have hc : jsIsWhite c = false := hall c (List.mem_cons_self c cs)
    rw [splitFieldsCore_cons]
    cases cs with
    | nil => simp [splitFieldsCore, splitStep, hc]
    | cons c' cs' =>
      rw [ih (by simp) (fun x hx => hall x (List.mem_cons_of_mem c hx))]
      simp [splitStep, hc]

theorem splitFieldsCore_word_append (w J : List Char) (hw : w ≠ [])
    (hall : ∀ c ∈ w, jsIsWhite c = false) :
    splitFieldsCore (w ++ ' ' :: J) = w :: splitFieldsCore J := by
  induction w with
  | nil => exact absurd rfl hw
  | cons c cs ih =>
    have hc : jsIsWhite c = false := hall c (List.mem_cons_self c cs)
    cases cs with
    | nil =>
      rw [show ([c] ++ ' ' :: J) = c :: ' ' :: J from rfl, splitFieldsCore_cons,
        splitFieldsCore_cons]
      simp [splitStep, hc, show jsIsWhite ' ' = true from by decide]
    | cons c' cs' =>
      rw [show ((c :: c' :: cs') ++ ' ' :: J) = c :: ((c' :: cs') ++ ' ' :: J) from rfl,
        splitFieldsCore_cons,
        ih (by simp) (fun x hx => hall x (List.mem_cons_of_mem c hx))]
      simp [splitStep, hc]

theorem splitFields_joinSep :
    ∀ ws : List (List Char),
      (∀ w ∈ ws, w ≠ [] ∧ ∀ c ∈ w, jsIsWhite c = false) →
      splitFields (joinSep ws) = ws := by
  intro ws
  induction ws with
  | nil => intro _; rfl
  | cons w rest ih =>
    intro h
    have hw := h w (List.mem_cons_self w rest)
    cases rest with
    | nil =>
      show splitFields (joinSep [w]) = [w]
      rw [show joinSep [w] = w from rfl, splitFields, splitFieldsCore_word w hw.1 hw.2]
      simp [List.isEmpty_iff, hw.1]
    | cons w' rest' =>
      rw [show joinSep (w :: w' :: rest') = w ++ ' ' :: joinSep (w' :: rest') from rfl,
        splitFields, splitFieldsCore_word_append w _ hw.1 hw.2]
      have hrest := ih (fun u hu => h u (List.mem_cons_of_mem w hu))
      rw [splitFields] at hrest
      simp only [List.filter_cons]
      rw [if_pos (by simp [List.isEmpty_iff, hw.1]), hrest]

/-! ## Claim C9: trimming canonically joined words -/

theorem dropLeadingWhite_eq_self (l : List Char)
    (h : ∀ c, l.head? = some c → jsIsWhite c = false) :
    dropLeadingWhite l = l := by
  cases l with
  | nil => rfl
  | cons c cs => simp [dropLeadingWhite, h c rfl]

theorem jsTrim_eq_self (s : String)
    (h1 : ∀ c, s.data.head? = some c → jsIsWhite c = false)
    (h2 : ∀ c, s.data.getLast? = some c → jsIsWhite c = false) :
    jsTrim s = s := by
  unfold jsTrim
  rw [dropLeadingWhite_eq_self s.data.reverse
      (fun c hc => h2 c (by rwa [List.head?_reverse] at hc)),
    List.reverse_reverse, dropLeadingWhite_eq_self s.data h1]

theorem joinSep_ne_nil (w : List Char) (ws : List (List Char)) (hw : w ≠ []) :
    joinSep (w :: ws) ≠ [] := by
  cases ws <;> simp [joinSep, hw]

theorem joinSep_head_not_white :
    ∀ ws : List (List Char),
      (∀ w ∈ ws, w ≠ [] ∧ ∀ c ∈ w, jsIsWhite c = false) →
      ∀ c, (joinSep ws).head? = some c → jsIsWhite c = false := by
  intro ws h c hc
  cases ws with
  | nil => simp [joinSep] at hc
  | cons w rest =>
    have hw := h w (List.mem_cons_self w rest)
    cases hwl : w with
    | nil => exact absurd hwl hw.1
    | cons cw cws =>
      have hhead : (joinSep (w :: rest)).head? = some cw := by
        cases rest with
        | nil => rw [show joinSep [w] = w from rfl, hwl]; rfl
        | cons w' rest' =>
          rw [show joinSep (w :: w' :: rest') = w ++ ' ' :: joinSep (w' :: rest') from rfl, hwl]
          rfl
      rw [hhead] at hc
      have hceq : c = cw := (Option.some.inj hc).symm
      rw [hceq]
      exact hw.2 cw (by rw [hwl]; exact List.mem_cons_self cw cws)

theorem joinSep_getLast_not_white :
    ∀ ws : List (List Char),
      (∀ w ∈ ws, w ≠ [] ∧ ∀ c ∈ w, jsIsWhite c = false) →
      ∀ c, (joinSep ws).getLast? = some c → jsIsWhite c = false := by
  intro ws
  induction ws with
  | nil => intro _ c hc; simp [joinSep] at hc
  | cons w rest ih =>
    intro h c hc
    have hw := h w (List.mem_cons_self w rest)
    cases rest with
    | nil =>
      rw [show joinSep [w] = w from rfl] at hc
      exact hw.2 c (List.mem_of_getLast?_eq_some hc)
    | cons w' rest' =>
      have hw' := h w' (List.mem_cons_of_mem w (List.mem_cons_self w' rest'))
      rw [show joinSep (w :: w' :: rest') = w ++ ' ' :: joinSep (w' :: rest') from rfl,
        List.getLast?_append] at hc
      have hne : joinSep (w' :: rest') ≠ [] := joinSep_ne_nil w' rest' hw'.1
      obtain ⟨j, js, hjs⟩ := List.exists_cons_of_ne_nil hne
      rw [hjs] at hc
      have hc2 : (j :: js).getLast? = some c := by
        rw [List.getLast?_cons_cons] at hc
        cases hx : (j :: js).getLast? with
        | none => exact absurd (List.getLast?_eq_none_iff.mp hx) (by simp)
        | some x =>
          rw [hx] at hc
          simp at hc
          exact congrArg some hc
      have := ih (fun u hu => h u (List.mem_cons_of_mem w hu)) c
      rw [hjs] at this
      exact this hc2

/-! ## Claim C9: `extendCronInterval` on a canonically spaced expression -/

theorem extendCron_canonical (w0 : List Char) (p1 p2 p3 p4 : String) (m : Int) (f : ℚ)
    (hw0ne : w0 ≠ []) (hw0 : ∀ c ∈ w0, jsIsWhite c = false)
    (hfields : ∀ p ∈ [p1, p2, p3, p4], p.data ≠ [] ∧ ∀ c ∈ p.data, jsIsWhite c = false)
    (hparse : jsParseInt (⟨w0⟩ : String) = some m) :
    extendCronInterval
        ((⟨w0⟩ : String) ++ " " ++ p1 ++ " " ++ p2 ++ " " ++ p3 ++ " " ++ p4) f =
      jsNumToString (max 1 ⌊(m : ℚ) * f⌋) ++ " " ++ p1 ++ " " ++ p2 ++ " " ++ p3 ++ " " ++ p4 := by
  have hdata : ((⟨w0⟩ : String) ++ " " ++ p1 ++ " " ++ p2 ++ " " ++ p3 ++ " " ++ p4).data
      = joinSep [w0, p1.data, p2.data, p3.data, p4.data] := by
    show (⟨w0⟩ : String).data ++ " ".data ++ p1.data ++ " ".data ++ p2.data ++ " ".data
        ++ p3.data ++ " ".data ++ p4.data = _
    simp [joinSep]
  have hws : ∀ w ∈ [w0, p1.data, p2.data, p3.data, p4.data],
      w ≠ [] ∧ ∀ c ∈ w, jsIsWhite c = false := by
    intro w hw
    simp only [List.mem_cons, List.not_mem_nil, or_false] at hw
    rcases hw with rfl | rfl | rfl | rfl | rfl
    · exact ⟨hw0ne, hw0⟩
    · exact hfields p1 (by simp)
    · exact hfields p2 (by simp)
    · exact hfields p3 (by simp)
    · exact hfields p4 (by simp)
  have htrim : jsTrim ((⟨w0⟩ : String) ++ " " ++ p1 ++ " " ++ p2 ++ " " ++ p3 ++ " " ++ p4)
      = (⟨w0⟩ : String) ++ " " ++ p1 ++ " " ++ p2 ++ " " ++ p3 ++ " " ++ p4 := by
    apply jsTrim_eq_self
    · rw [hdata]; exact joinSep_head_not_white _ hws
    · rw [hdata]; exact joinSep_getLast_not_white _ hws
  have hsplit : (splitFields
      (jsTrim ((⟨w0⟩ : String) ++ " " ++ p1 ++ " " ++ p2 ++ " " ++ p3 ++ " " ++ p4)).data).map
        (fun l => (⟨l⟩ : String)) = [(⟨w0⟩ : String), p1, p2, p3, p4] := by
    rw [htrim, hdata, splitFields_joinSep _ hws]
    rfl
  exact extendCron_numeric _ f (⟨w0⟩ : String) p1 p2 p3 p4 m hsplit hparse

/-- Claim C9 (counterexample): at the cron expression `0 * * * *` with
factor 1/2 every integrality hypothesis of the claim holds — `0 × (1/2) =
0` and `1 × 2 = 2` are integers — yet the round trip returns `2 * * * *`,
not the original: the `Math.max(1, ...)` clamp turns minute 0 into 1, and
extending back by 2 gives 2. -/
theorem C9_counterexample :
    jsParseInt "0" = some 0 ∧
    (0 : ℚ) < 1/2 ∧
    (((0 : Int) : ℚ) * (1/2)).den = 1 ∧
    extendCronInterval "0 * * * *" (1/2) = "1 * * * *" ∧
    jsParseInt "1" = some 1 ∧
    (((1 : Int) : ℚ) * (1/(1/2))).den = 1 ∧
    extendCronInterval (extendCronInterval "0 * * * *" (1/2)) (1/(1/2)) = "2 * * * *" ∧
    ("2 * * * *" : String) ≠ "0 * * * *" := by
  have ha : extendCronInterval "0 * * * *" ((1 : ℚ)/2) = "1 * * * *" := by
    rw [extendCron_numeric "0 * * * *" (1/2) "0" "*" "*" "*" "*" 0 (by decide) (by decide)]
    rw [show ⌊((0 : Int) : ℚ) * (1/2)⌋ = 0 from by norm_num]
    decide
  have hb : extendCronInterval "1 * * * *" ((1 : ℚ)/(1/2)) = "2 * * * *" := by
    rw [extendCron_numeric "1 * * * *" (1/(1/2)) "1" "*" "*" "*" "*" 1 (by decide) (by decide)]
    rw [show ⌊((1 : Int) : ℚ) * (1/(1/2))⌋ = 2 from by norm_num]
    decide
  refine ⟨by decide, by norm_num, by norm_num, ha, by decide, by norm_num, ?_, by decide⟩
  rw [ha, hb]

/-- Claim C9 (amended): for a canonically spaced 5-field expression whose
minute field is the decimal rendering of an integer `m >= 1` and whose
other fields are non-empty and whitespace-free, and for every factor
`f > 0` such that `m × f` is an integer, extending by `f` and then by
`1/f` returns the original expression.  (The original claim fails at
`m = 0`, where the `max(1, ...)` clamp is not invertible, and for
non-canonical spacing, which the rebuild normalizes.) -/
theorem C9_amended (p1 p2 p3 p4 : String) (m : Nat) (f : ℚ) (e : String)
    (he : e = (⟨natPrint m⟩ : String) ++ " " ++ p1 ++ " " ++ p2 ++ " " ++ p3 ++ " " ++ p4)
    (hm : 1 ≤ m)
    (hfields : ∀ p ∈ [p1, p2, p3, p4], p.data ≠ [] ∧ ∀ c ∈ p.data, jsIsWhite c = false)
    (hf : 0 < f)
    (hint : ((m : ℚ) * f).den = 1) :
    extendCronInterval (extendCronInterval e f) (1/f) = e := by
  obtain ⟨hne0, hall0⟩ := natPrint_all m
  have h1 := extendCron_canonical (natPrint m) p1 p2 p3 p4 (m : Int) f hne0
    (fun c hc => (hall0 c hc).2) hfields
    (by rw [jsParseInt_natPrint m])
  rw [he, h1]
  have hq : (((((m : ℚ) * f).num : Int) : ℚ)) = (m : ℚ) * f :=
    Rat.coe_int_num_of_den_eq_one hint
  have hNfloor : ⌊((m : Int) : ℚ) * f⌋ = ((m : ℚ) * f).num := by
    rw [show (((m : Int) : ℚ)) = ((m : Nat) : ℚ) from by push_cast; ring, ← hq,
      Int.floor_intCast, Rat.num_intCast]
  set N : Int := ((m : ℚ) * f).num with hNdef
  have hNpos : 1 ≤ N := by
    have hmf : (0 : ℚ) < (m : ℚ) * f := by
      apply mul_pos _ hf
      exact_mod_cast Nat.lt_of_lt_of_le Nat.zero_lt_one hm
    have : 0 < N := by
      rw [hNdef]
      exact Rat.num_pos.mpr hmf
    omega
  rw [hNfloor, max_eq_right hNpos,
    show jsNumToString N = (⟨natPrint N.toNat⟩ : String) from by
      rw [jsNumToString, if_neg (by omega)]]
  obtain ⟨hne1, hall1⟩ := natPrint_all N.toNat
  have h2 := extendCron_canonical (natPrint N.toNat) p1 p2 p3 p4 ((N.toNat : Nat) : Int) (1/f)
    hne1 (fun c hc => (hall1 c hc).2) hfields
    (by rw [jsParseInt_natPrint N.toNat])
  rw [h2]
  have hfne : f ≠ 0 := ne_of_gt hf
  have hval2 : (((N.toNat : Nat) : Int) : ℚ) * (1/f) = (m : ℚ) := by
    rw [show (((N.toNat : Nat) : Int) : ℚ) = ((N : Int) : ℚ) from by
        rw [Int.toNat_of_nonneg (by omega)],
      hNdef, hq]
    field_simp
  have hfloor2 : ⌊(((N.toNat : Nat) : Int) : ℚ) * (1/f)⌋ = (m : Int) := by
    rw [hval2]
    exact Int.floor_natCast m
  rw [hfloor2, max_eq_right (by exact_mod_cast hm), jsNumToString_ofNat m, ← he]

/-- Witness for `C9_amended`: expression `4 * * * *`, factor 1/2 — halve,
then double, and the original returns. -/
theorem C9_amended_witness :
    extendCronInterval (extendCronInterval "4 * * * *" (1/2)) (1/(1/2)) = "4 * * * *" :=
  C9_amended "*" "*" "*" "*" 4 (1/2) "4 * * * *" (by decide) (by omega)
    (by decide) (by norm_num) (by norm_num)

end CronManager
